import Mathlib

/-!
# FinRisk-Lab: shallow embedding and verification

A shallow embedding of the risk-analytics pipeline of FinRisk-Lab
(`src/metrics/*.py`, `src/portfolio/portfolio_engine.py`,
`src/risk_models/stress_engine.py`) together with proofs of the spec's
claims about it.

Two views of the data are used, both translated from the source:
* an executable, dictionary-like view over `ℚ` (weights as association
  lists keyed by asset identifiers, price/return series as `List ℚ`) for
  the validation and stress functions, which let every witness evaluate
  by `decide`;
* an index-based view over `ℝ` (`Fin n → Fin m → ℝ` tables) for the
  covariance / square-root computations of the portfolio engine, since
  `np.sqrt` and `np.log` land outside `ℚ`.
-/

namespace FinRisk

/-- The failure kinds raised by the pipeline (the Python code raises
`ValueError`; the spec distinguishes them by name, §7). -/
inductive Err where
  | emptyInput
  | insufficientData
  | weightMismatch
  | weightSum
  | negativeWeight
  | invalidShock
  | undefinedRatioError
  deriving DecidableEq, Repr

/-! ## Dictionary view: weights as association lists over `ℚ` -/

/-- Asset identifiers (Python dict keys / DataFrame column labels). -/
abbrev Asset := String

/-- A weight vector as the Python `dict`: an association list from asset
identifiers to rational weights. -/
abbrev Weights := List (Asset × ℚ)

/-- Key set of a weight dict (`set(weights.keys())`). -/
def weightKeys (w : Weights) : Finset Asset := (w.map Prod.fst).toFinset

/-- Sum of the weight values (`sum(weights.values())`). -/
def totalWeight (w : Weights) : ℚ := (w.map Prod.snd).sum

/-- Source `portfolio_engine.validate_weights`: key-set mismatch check first,
then the sum-tolerance check, then the negativity check; the first
failing check raises. -/
def validate_weights (weights : Weights) (assets : List Asset) : Except Err Unit :=
  if weightKeys weights ≠ assets.toFinset then
    .error .weightMismatch
  else if |totalWeight weights - 1| > 1 / 1000000 then
    .error .weightSum
  else if (weights.map Prod.snd).any (fun w => w < 0) then
    .error .negativeWeight
  else
    .ok ()

/-- A return table in the dictionary view: column labels plus one list
of cells per date, aligned with the labels. -/
structure RetTable where
  cols : List Asset
  rows : List (List ℚ)

/-- Source `portfolio_engine.calculate_portfolio_returns`: validates the weights
against the return table's columns, then forms the weighted row sums
(`(asset_returns*weights).sum(axis=1)`). -/
def calculate_portfolio_returns (asset_returns : RetTable)
    (weights : Weights) : Except Err (List ℚ) := do
  let _ ← validate_weights weights asset_returns.cols
  return asset_returns.rows.map (fun row =>
    (List.zipWith (fun a x => ((weights.lookup a).getD 0) * x) asset_returns.cols row).sum)

/-- Source `portfolio_engine.calculate_portfolio_annual_return`:
`(1 + portfolio_daily_ret).prod() - 1` (the empty product is `1`). -/
def calculate_portfolio_annual_return (portfolio_daily_ret : List ℚ) : ℚ :=
  ((portfolio_daily_ret.map (fun r => 1 + r)).prod) - 1

/-! ## Stress engine, dictionary view -/

/-- Source `stress_engine.calculate_stressed_assets_returns`: rejects any shock
outside `[-1, 0]`, otherwise scales every beta by the shock. -/
def calculate_stressed_assets_returns (betas : List ℚ) (shock_amt : ℚ) :
    Except Err (List ℚ) :=
  if -1 ≤ shock_amt ∧ shock_amt ≤ 0 then
    .ok (betas.map (fun b => b * shock_amt))
  else
    .error .invalidShock

/-- Source `stress_engine.calculate_portfolio_loss`: the weighted sum of the
stressed asset returns.  The Python function performs no weight
validation; it is total. -/
def calculate_portfolio_loss (weights : Weights) (asset_stress_returns : Asset → ℚ) : ℚ :=
  (weights.map (fun p => p.2 * asset_stress_returns p.1)).sum

/-- Source `stress_engine.calculate_concentration_stress_loss`: checks only the
shock bound; then, for each asset in turn, the loss from shocking that
asset alone (all other returns zero).  No weight validation. -/
def calculate_concentration_stress_loss (weights : Weights) (stress_amt : ℚ) :
    Except Err (List (Asset × ℚ)) :=
  if -1 ≤ stress_amt ∧ stress_amt ≤ 0 then
    .ok (weights.map (fun p =>
      (p.1, (weights.map (fun q => q.2 * (if q.1 = p.1 then stress_amt else 0))).sum)))
  else
    .error .invalidShock

/-! ## Sharpe module (`metrics/sharpe.py`), index view over `ℚ` -/

/-- Modelled from the spec: `config.settings.TRADING_DAYS_PER_YEAR` is
imported by `metrics/sharpe.py` but `config/settings.py` is not in the
sources; the spec fixes the trading-day convention at 252 (§4.2, §4.7). -/
def TRADING_DAYS_PER_YEAR : ℚ := 252

/-- Column mean of a return table (`DataFrame.mean()`), over `ℚ`. -/
def colMean (n m : ℕ) (r : Fin n → Fin m → ℚ) (i : Fin m) : ℚ :=
  (∑ t, r t i) / n

/-- Source `sharpe.calculate_sharpe`: raises when any annual volatility is
`≤ 0`, otherwise `mean(daily_return) * TRADING_DAYS_PER_YEAR / annual_vol`
per asset. -/
def calculate_sharpe (n m : ℕ) (daily_returns : Fin n → Fin m → ℚ)
    (annual_vol : Fin m → ℚ) : Except Err (Fin m → ℚ) :=
  if ∃ i, annual_vol i ≤ 0 then
    .error .undefinedRatioError
  else
    .ok (fun i => colMean n m daily_returns i * TRADING_DAYS_PER_YEAR / annual_vol i)

/-! ## Drawdown module (`metrics/drawdown.py`), over `ℚ` -/

/-- Running maximum continued from a current peak `c` (the tail of
`Series.cummax`). -/
def cummaxFrom (c : ℚ) : List ℚ → List ℚ
  | [] => []
  | x :: xs => max c x :: cummaxFrom (max c x) xs

/-- Source `Series.cummax`: running maximum walked forward from the start. -/
def cummax : List ℚ → List ℚ
  | [] => []
  | x :: xs => x :: cummaxFrom x xs

/-- The drawdown series `(value - running_max) / running_max`. -/
def drawdownSeries (cleaned_prices : List ℚ) : List ℚ :=
  List.zipWith (fun v m => (v - m) / m) cleaned_prices (cummax cleaned_prices)

/-- Source `drawdown.calculate_drawdown`: the drawdown series and its minimum
(`Series.min()`; `none` models the NaN a length-0 series yields). -/
def calculate_drawdown (cleaned_prices : List ℚ) : List ℚ × Option ℚ :=
  (drawdownSeries cleaned_prices, (drawdownSeries cleaned_prices).min?)

/-! ## Returns module (`metrics/returns.py`), price series over `ℝ` -/

/-- First differences of a series (`Series.diff` / `pct_change`, with the
undefined first row dropped). -/
def diffWith (f : ℝ → ℝ → ℝ) (l : List ℝ) : List ℝ :=
  List.zipWith f l l.tail

/-- Source `returns.daily_returns`: raises `EmptyInputError` on a zero-row price
table, otherwise `prices[t]/prices[t-1] - 1` rowwise. -/
noncomputable def daily_returns (prices : List ℝ) : Except Err (List ℝ) :=
  if prices.isEmpty then
    .error .emptyInput
  else
    .ok (diffWith (fun p q => q / p - 1) prices)

/-- Source `returns.daily_log_returns`: `np.log(prices).diff()`, with no
emptiness check of any kind — a total function. -/
noncomputable def daily_log_returns (prices : List ℝ) : List ℝ :=
  diffWith (fun a b => b - a) (prices.map Real.log)

/-! ## Portfolio engine, index view over `ℝ`

Tables are `Fin n → Fin m → ℝ` (`n` dates, `m` assets); a weight vector
is `Fin m → ℝ`.  `validate_weights` on this view becomes the proposition
`ValidWeightsR` (the key-set check is vacuous once both sides are indexed
by `Fin m`). -/

/-- The conditions `validate_weights` enforces, on the index view: the
weights sum to 1 within the `1e-6` tolerance and none is negative. -/
def ValidWeightsR (m : ℕ) (w : Fin m → ℝ) : Prop :=
  |(∑ i, w i) - 1| ≤ 1 / 1000000 ∧ ∀ i, 0 ≤ w i

/-- Source `np.dot` of two vectors. -/
def dotVec (m : ℕ) (v w : Fin m → ℝ) : ℝ := ∑ i, v i * w i

/-- Source `np.dot` of a matrix and a vector. -/
def matVec (m : ℕ) (A : Fin m → Fin m → ℝ) (w : Fin m → ℝ) : Fin m → ℝ :=
  fun i => ∑ j, A i j * w j

/-- Column mean of a real table (`DataFrame.mean()`). -/
noncomputable def colMeanR (n m : ℕ) (r : Fin n → Fin m → ℝ) (i : Fin m) : ℝ :=
  (∑ t, r t i) / n

/-- Source `DataFrame.cov()`: the sample covariance matrix with the pandas
`ddof=1` denominator `n - 1`. -/
noncomputable def covMatrix (n m : ℕ) (r : Fin n → Fin m → ℝ) :
    Fin m → Fin m → ℝ :=
  fun i j =>
    (∑ t, (r t i - colMeanR n m r i) * (r t j - colMeanR n m r j)) / ((n : ℝ) - 1)

/-- Source `portfolio_engine.calculate_daily_portfolio_volatility` (after its
weight validation): `sqrt(w' · cov(log_returns) · w)`. -/
noncomputable def calculate_daily_portfolio_volatility (n m : ℕ)
    (log_returns : Fin n → Fin m → ℝ) (w : Fin m → ℝ) : ℝ :=
  Real.sqrt (dotVec m w (matVec m (covMatrix n m log_returns) w))

/-- Source `portfolio_engine.calculate_asset_risk_contribution` (after its
weight validation): marginal risk contribution
`MRC = cov · w / portfolio_vol`, then `w_i * MRC_i` per asset. -/
noncomputable def calculate_asset_risk_contribution (n m : ℕ) (w : Fin m → ℝ)
    (log_returns : Fin n → Fin m → ℝ) (portfolio_vol : ℝ) : Fin m → ℝ :=
  fun i => w i * (matVec m (covMatrix n m log_returns) w i / portfolio_vol)

/-- Source `portfolio_engine.calculate_diversification_benefit` (after its
weight validation): `0.0` for a single-asset portfolio, otherwise the
weighted sum of asset volatilities minus the portfolio volatility. -/
noncomputable def calculate_diversification_benefit (m : ℕ)
    (asset_vols : Fin m → ℝ) (w : Fin m → ℝ) (portfolio_vol : ℝ) : ℝ :=
  if m = 1 then 0 else (∑ i, asset_vols i * w i) - portfolio_vol

/-! ## Portfolio engine, dictionary view including the validation step

The same three weight-consuming functions, embedded with their leading
`validate_weights` call: the weight dict is read off against the table's
column labels, so the hard-fail path of the source is part of the
definition. -/

/-- The real-valued weight vector `pd.Series(weights)` aligned to a
column-label list. -/
def weightVecOn (cols : List Asset) (weights : Weights) : Fin cols.length → ℝ :=
  fun j => (((weights.lookup (cols.get j)).getD 0 : ℚ) : ℝ)

/-- The cells of a dictionary-view return table as a real-valued
index-view table. -/
def tableOf (t : RetTable) : Fin t.rows.length → Fin t.cols.length → ℝ :=
  fun ti j => (((t.rows.get ti).getD j.val 0 : ℚ) : ℝ)

/-- Source `portfolio_engine.calculate_daily_portfolio_volatility`,
dictionary view: validates the weights against the log-return table's
columns, then returns `sqrt(w' · cov · w)`. -/
noncomputable def calculate_daily_portfolio_volatility_dict (log_returns : RetTable)
    (weights : Weights) : Except Err ℝ := do
  let _ ← validate_weights weights log_returns.cols
  let w := weightVecOn log_returns.cols weights
  return Real.sqrt (dotVec log_returns.cols.length w
    (matVec log_returns.cols.length
      (covMatrix log_returns.rows.length log_returns.cols.length (tableOf log_returns)) w))

/-- Source `portfolio_engine.calculate_asset_risk_contribution`,
dictionary view: validates the weights against the log-return table's
columns, then returns `w_i * (cov · w)_i / portfolio_vol` per asset. -/
noncomputable def calculate_asset_risk_contribution_dict (weights : Weights)
    (log_returns : RetTable) (portfolio_vol : ℝ) :
    Except Err (Fin log_returns.cols.length → ℝ) := do
  let _ ← validate_weights weights log_returns.cols
  let w := weightVecOn log_returns.cols weights
  return fun i => w i *
    (matVec log_returns.cols.length
      (covMatrix log_returns.rows.length log_returns.cols.length (tableOf log_returns)) w i /
        portfolio_vol)

/-- Source `portfolio_engine.calculate_diversification_benefit`,
dictionary view: validates the weights against the volatility series'
index, returns `0.0` for a single-asset portfolio, and otherwise the
weighted volatility sum minus the portfolio volatility. -/
noncomputable def calculate_diversification_benefit_dict
    (asset_vols : List (Asset × ℝ)) (weights : Weights) (portfolio_vol : ℝ) :
    Except Err ℝ := do
  let _ ← validate_weights weights (asset_vols.map Prod.fst)
  if weights.length = 1 then
    return 0
  else
    return (asset_vols.map
      (fun p => p.2 * (((weights.lookup p.1).getD 0 : ℚ) : ℝ))).sum - portfolio_vol

/-! ## Stress engine, index view over `ℝ` -/

/-- Source `DataFrame.clip(lo, hi)` elementwise. -/
noncomputable def clip (lo hi x : ℝ) : ℝ := max lo (min x hi)

/-- Source `np.diag(asset_vols)`. -/
def diagMat (m : ℕ) (v : Fin m → ℝ) : Fin m → Fin m → ℝ :=
  fun i j => if i = j then v i else 0

/-- Matrix product (`@`). -/
def matMul (m : ℕ) (A B : Fin m → Fin m → ℝ) : Fin m → Fin m → ℝ :=
  fun i j => ∑ k, A i k * B k j

/-- Source `stress_engine.calculate_correlation_breakdown_volatility`: scale the
correlation matrix by 1.5, clip to `[-1, 1]`, rebuild the covariance as
`D @ Corr' @ D`, and take the quadratic-form volatility. -/
noncomputable def calculate_correlation_breakdown_volatility (m : ℕ)
    (corr_matrix : Fin m → Fin m → ℝ) (asset_vols : Fin m → ℝ)
    (w : Fin m → ℝ) : ℝ :=
  let stressed_corr_matrix := fun i j => clip (-1) 1 (corr_matrix i j * 1.5)
  let D := diagMat m asset_vols
  let stressed_cov_matrix := matMul m (matMul m D stressed_corr_matrix) D
  Real.sqrt (dotVec m w (matVec m stressed_cov_matrix w))

/-- Source `stress_engine.calculate_annual_correlation_breakdown_volatility`:
`daily_value * sqrt(252)`. -/
noncomputable def calculate_annual_correlation_breakdown_volatility
    (daily_breakdown_portfolio_vol : ℝ) : ℝ :=
  daily_breakdown_portfolio_vol * Real.sqrt 252

/-! ## Helper lemmas -/

/-- Source `validate_weights` raises the mismatch error when the key sets
differ. -/
lemma validate_weights_mismatch {ws : Weights} {assets : List Asset}
    (h : weightKeys ws ≠ assets.toFinset) :
    validate_weights ws assets = .error .weightMismatch := by
  unfold validate_weights
  rw [if_pos h]

/-- Source `validate_weights` raises the weight-sum error when the keys match
but the sum is out of tolerance, regardless of later checks. -/
lemma validate_weights_sumErr {ws : Weights} {assets : List Asset}
    (h1 : weightKeys ws = assets.toFinset)
    (h2 : |totalWeight ws - 1| > 1 / 1000000) :
    validate_weights ws assets = .error .weightSum := by
  unfold validate_weights
  rw [if_neg (not_not_intro h1), if_pos h2]

/-- The concrete invalid weights `{A: 1, B: 1}` (sum `2`) are rejected
with the weight-sum error. -/
lemma validate_weights_AB_sum2 :
    validate_weights [("A", 1), ("B", 1)] ["A", "B"] = .error .weightSum := by
  refine validate_weights_sumErr (by rfl) ?_
  norm_num [totalWeight]

/-! ## Claims -/

/-- C10: `calculate_portfolio_annual_return` on an empty daily-return
series returns exactly `0` (the empty product of `1 + r_t` is `1`, minus
`1`), raising no error. -/
theorem claim_C10 : calculate_portfolio_annual_return [] = 0 := by
  norm_num [calculate_portfolio_annual_return]

/-- C7: `calculate_stressed_assets_returns` raises `InvalidShockError`
for every shock outside `[-1, 0]`; for a shock inside it, it returns
`beta_i * shock` per asset; a market shock of `-0.20` with beta `1.5`
yields exactly `-0.30`. -/
theorem claim_C7 (betas : List ℚ) (shock : ℚ) :
    (¬(-1 ≤ shock ∧ shock ≤ 0) →
      calculate_stressed_assets_returns betas shock = .error .invalidShock) ∧
    ((-1 ≤ shock ∧ shock ≤ 0) →
      calculate_stressed_assets_returns betas shock = .ok (betas.map (fun b => b * shock))) ∧
    calculate_stressed_assets_returns [3/2] (-1/5) = .ok [-3/10] := by
  refine ⟨fun h => ?_, fun h => ?_, ?_⟩
  · unfold calculate_stressed_assets_returns
    rw [if_neg h]
  · unfold calculate_stressed_assets_returns
    rw [if_pos h]
  · unfold calculate_stressed_assets_returns
    rw [if_pos (by norm_num)]
    simp only [List.map]
    norm_num

/-- Witness for C7 at concrete inputs: shock `1/2` is rejected, shock
`-1/5` with beta `3/2` yields `-3/10`. -/
theorem claim_C7_witness :
    calculate_stressed_assets_returns [1] (1/2) = .error .invalidShock ∧
    calculate_stressed_assets_returns [3/2] (-1/5) = .ok ([3/2].map (fun b => b * (-1/5))) :=
  ⟨(claim_C7 [1] (1/2)).1 (by norm_num),
   (claim_C7 [3/2] (-1/5)).2.1 (by norm_num)⟩

/-- C9: `validate_weights` checks key-set mismatch first, then the weight
sum, then negativity; a weight vector with matching keys whose sum is off
raises the weight-sum error even when it also has negative entries. -/
theorem claim_C9 (ws : Weights) (assets : List Asset) :
    (weightKeys ws ≠ assets.toFinset →
      validate_weights ws assets = .error .weightMismatch) ∧
    (weightKeys ws = assets.toFinset → |totalWeight ws - 1| > 1 / 1000000 →
      validate_weights ws assets = .error .weightSum) :=
  ⟨fun h => validate_weights_mismatch h,
   fun h1 h2 => validate_weights_sumErr h1 h2⟩

/-- Witness for C9: the weights `{A: -0.2, B: 1.5}` over universe
`{A, B}` raise the weight-sum error, not the negative-weight error. -/
theorem claim_C9_witness :
    validate_weights [("A", -1/5), ("B", 3/2)] ["A", "B"] = .error .weightSum :=
  (claim_C9 [("A", -1/5), ("B", 3/2)] ["A", "B"]).2 (by rfl)
    (by norm_num [totalWeight, abs_of_pos])

/-- C6: `calculate_sharpe` raises `UndefinedRatioError` iff some asset's
annual volatility is `≤ 0`, and otherwise returns
`mean(daily_return) * trading_days / annual_volatility` per asset. -/
theorem claim_C6 (n m : ℕ) (r : Fin n → Fin m → ℚ) (v : Fin m → ℚ) :
    (calculate_sharpe n m r v = .error .undefinedRatioError ↔ ∃ i, v i ≤ 0) ∧
    ((∀ i, 0 < v i) →
      calculate_sharpe n m r v = .ok (fun i => (∑ t, r t i) / n * 252 / v i)) := by
  constructor
  · by_cases h : ∃ i, v i ≤ 0 <;> simp [calculate_sharpe, h]
  · intro h
    have h' : ¬∃ i, v i ≤ 0 := by
      rintro ⟨i, hi⟩
      exact absurd (h i) (not_lt.mpr hi)
    simp [calculate_sharpe, h', colMean, TRADING_DAYS_PER_YEAR]

/-- Witness for C6 at a one-asset, one-day table with positive
volatility. -/
theorem claim_C6_witness :
    calculate_sharpe 1 1 (fun _ _ => 1/100) (fun _ => 1/5) =
      .ok (fun _ => (∑ _t : Fin 1, (1:ℚ)/100) / 1 * 252 / (1/5)) :=
  (claim_C6 1 1 (fun _ _ => 1/100) (fun _ => 1/5)).2 (fun _ => by norm_num)

/-- C2 counterexample: the weights `{A: 1, B: 1}` sum to 2 and are
rejected by `validate_weights`, yet the stress-engine
`calculate_portfolio_loss` and `calculate_concentration_stress_loss`
perform no weight validation and return results on them. -/
theorem claim_C2_counterexample :
    validate_weights [("A", 1), ("B", 1)] ["A", "B"] = .error .weightSum ∧
    calculate_portfolio_loss [("A", 1), ("B", 1)] (fun _ => -1/5) = -2/5 ∧
    calculate_concentration_stress_loss [("A", 1), ("B", 1)] (-2/5) =
      .ok [("A", -2/5), ("B", -2/5)] := by
  refine ⟨validate_weights_AB_sum2, ?_, ?_⟩
  · norm_num [calculate_portfolio_loss]
  · unfold calculate_concentration_stress_loss
    rw [if_pos (by norm_num)]
    simp only [List.map, List.sum_cons, List.sum_nil]
    norm_num
    decide

/-- C2, amended: all four portfolio-engine weight-consuming computations
(`calculate_portfolio_returns`, `calculate_daily_portfolio_volatility`,
`calculate_asset_risk_contribution`,
`calculate_diversification_benefit`) validate the weights before any
weight-dependent arithmetic and propagate the validation error, while
the stress-engine operations do not validate weights:
`calculate_concentration_stress_loss` succeeds for every weight vector
once the shock is in range, and `calculate_portfolio_loss` is total and
returns the weighted sum for every weight vector. -/
theorem claim_C2 (t : RetTable) (av : List (Asset × ℝ)) (pv : ℝ)
    (ws : Weights) (e : Err) (r : Asset → ℚ) (s : ℚ) :
    (validate_weights ws t.cols = .error e →
      calculate_portfolio_returns t ws = .error e ∧
      calculate_daily_portfolio_volatility_dict t ws = .error e ∧
      calculate_asset_risk_contribution_dict ws t pv = .error e) ∧
    (validate_weights ws (av.map Prod.fst) = .error e →
      calculate_diversification_benefit_dict av ws pv = .error e) ∧
    (-1 ≤ s → s ≤ 0 →
      ∃ losses, calculate_concentration_stress_loss ws s = .ok losses) ∧
    calculate_portfolio_loss ws r = (ws.map (fun p => p.2 * r p.1)).sum := by
  refine ⟨fun h => ⟨?_, ?_, ?_⟩, fun h => ?_, fun h1 h2 => ?_, rfl⟩
  · simp [calculate_portfolio_returns, h]
  · simp [calculate_daily_portfolio_volatility_dict, h]
  · simp [calculate_asset_risk_contribution_dict, h]
  · unfold calculate_diversification_benefit_dict
    rw [h]
    rfl
  · refine ⟨ws.map (fun p =>
      (p.1, (ws.map (fun q => q.2 * (if q.1 = p.1 then s else 0))).sum)), ?_⟩
    unfold calculate_concentration_stress_loss
    rw [if_pos ⟨h1, h2⟩]

/-- Witness for C2 (amended): on the invalid weights `{A: 1, B: 1}` all
four engine computations fail with the weight-sum error while the stress
engine's concentration loss still succeeds. -/
theorem claim_C2_witness :
    calculate_portfolio_returns ⟨["A", "B"], [[1/10, 1/10]]⟩ [("A", 1), ("B", 1)] =
      .error .weightSum ∧
    calculate_daily_portfolio_volatility_dict ⟨["A", "B"], [[1/10, 1/10]]⟩
      [("A", 1), ("B", 1)] = .error .weightSum ∧
    calculate_asset_risk_contribution_dict [("A", 1), ("B", 1)]
      ⟨["A", "B"], [[1/10, 1/10]]⟩ 0 = .error .weightSum ∧
    calculate_diversification_benefit_dict [("A", (1:ℝ)/10), ("B", 1/5)]
      [("A", 1), ("B", 1)] 0 = .error .weightSum ∧
    ∃ losses, calculate_concentration_stress_loss [("A", 1), ("B", 1)] (-2/5) = .ok losses :=
  ⟨((claim_C2 ⟨["A", "B"], [[1/10, 1/10]]⟩ [("A", (1:ℝ)/10), ("B", 1/5)] 0
      [("A", 1), ("B", 1)] .weightSum (fun _ => 0) (-2/5)).1 validate_weights_AB_sum2).1,
   ((claim_C2 ⟨["A", "B"], [[1/10, 1/10]]⟩ [("A", (1:ℝ)/10), ("B", 1/5)] 0
      [("A", 1), ("B", 1)] .weightSum (fun _ => 0) (-2/5)).1 validate_weights_AB_sum2).2.1,
   ((claim_C2 ⟨["A", "B"], [[1/10, 1/10]]⟩ [("A", (1:ℝ)/10), ("B", 1/5)] 0
      [("A", 1), ("B", 1)] .weightSum (fun _ => 0) (-2/5)).1 validate_weights_AB_sum2).2.2,
   (claim_C2 ⟨["A", "B"], [[1/10, 1/10]]⟩ [("A", (1:ℝ)/10), ("B", 1/5)] 0
      [("A", 1), ("B", 1)] .weightSum (fun _ => 0) (-2/5)).2.1
     (by simp only [List.map]; exact validate_weights_AB_sum2),
   (claim_C2 ⟨["A", "B"], [[1/10, 1/10]]⟩ [("A", (1:ℝ)/10), ("B", 1/5)] 0
      [("A", 1), ("B", 1)] .weightSum (fun _ => 0) (-2/5)).2.2.1
     (by norm_num) (by norm_num)⟩

/-- C1: for a valid weight vector, the per-asset risk contributions
computed against the portfolio volatility `sqrt(w' Σ w)` produced by
`calculate_daily_portfolio_volatility` on the same inputs sum to that
portfolio volatility (Euler risk decomposition). -/
theorem claim_C1 (n m : ℕ) (r : Fin n → Fin m → ℝ) (w : Fin m → ℝ)
    (_hw : ValidWeightsR m w) :
    (∑ i, calculate_asset_risk_contribution n m w r
        (calculate_daily_portfolio_volatility n m r w) i) =
      calculate_daily_portfolio_volatility n m r w := by
  unfold calculate_asset_risk_contribution calculate_daily_portfolio_volatility
  have : (∑ i, w i * (matVec m (covMatrix n m r) w i /
        Real.sqrt (dotVec m w (matVec m (covMatrix n m r) w)))) =
      (∑ i, w i * matVec m (covMatrix n m r) w i) /
        Real.sqrt (dotVec m w (matVec m (covMatrix n m r) w)) := by
    rw [Finset.sum_div]
    exact Finset.sum_congr rfl (fun i _ => by rw [mul_div_assoc])
  rw [this]
  show dotVec m w (matVec m (covMatrix n m r) w) / _ = _
  exact Real.div_sqrt

/-- Witness for C1 at a concrete two-asset, two-date return table with
equal weights. -/
theorem claim_C1_witness :
    (∑ i, calculate_asset_risk_contribution 2 2 ![(1:ℝ)/2, 1/2]
        ![![(1:ℝ)/10, 0], ![0, 1/10]]
        (calculate_daily_portfolio_volatility 2 2 ![![(1:ℝ)/10, 0], ![0, 1/10]]
          ![(1:ℝ)/2, 1/2]) i) =
      calculate_daily_portfolio_volatility 2 2 ![![(1:ℝ)/10, 0], ![0, 1/10]]
        ![(1:ℝ)/2, 1/2] :=
  claim_C1 2 2 ![![(1:ℝ)/10, 0], ![0, 1/10]] ![(1:ℝ)/2, 1/2]
    ⟨by norm_num [Fin.sum_univ_two], by
      intro i
      fin_cases i <;> norm_num⟩

/-- C8: `calculate_correlation_breakdown_volatility` equals
`sqrt(w' · (D · clip(1.5·Corr, -1, 1) · D) · w)` with `D` the diagonal
matrix of per-asset daily volatilities, and its annual counterpart
multiplies the daily value by `sqrt 252`. -/
theorem claim_C8 (m : ℕ) (corr : Fin m → Fin m → ℝ) (vols : Fin m → ℝ)
    (w : Fin m → ℝ) :
    calculate_correlation_breakdown_volatility m corr vols w =
      Real.sqrt (∑ i, w i *
        (∑ j, (vols i * clip (-1) 1 (1.5 * corr i j) * vols j) * w j)) ∧
    ∀ x : ℝ, calculate_annual_correlation_breakdown_volatility x =
      x * Real.sqrt 252 := by
  refine ⟨?_, fun x => rfl⟩
  show Real.sqrt (dotVec m w (matVec m
      (matMul m (matMul m (diagMat m vols)
        (fun i j => clip (-1) 1 (corr i j * 1.5))) (diagMat m vols)) w)) = _
  congr 1
  unfold dotVec matVec matMul diagMat
  refine Finset.sum_congr rfl (fun i _ => ?_)
  congr 1
  refine Finset.sum_congr rfl (fun j _ => ?_)
  congr 1
  simp only [ite_mul, zero_mul, mul_ite, mul_zero, Finset.sum_ite_eq,
    Finset.sum_ite_eq', Finset.mem_univ, if_true]
  rw [mul_comm (corr i j)]

/-- C5: with a valid weight vector, `calculate_diversification_benefit`
returns exactly `0` for a single-asset portfolio and otherwise the
weighted sum of the individual volatilities minus the supplied portfolio
volatility; the result is nonnegative whenever all pairwise correlations
are `≤ 1` (i.e. `cov i j ≤ vols i * vols j`) and the portfolio
volatility is the quadratic-form volatility over that covariance. -/
theorem claim_C5 (m : ℕ) (vols w : Fin m → ℝ) (cov : Fin m → Fin m → ℝ)
    (pv : ℝ) (hw : ValidWeightsR m w) :
    (m = 1 → calculate_diversification_benefit m vols w pv = 0) ∧
    (m ≠ 1 → calculate_diversification_benefit m vols w pv =
      (∑ i, vols i * w i) - pv) ∧
    ((∀ i, 0 ≤ vols i) → (∀ i j, cov i j ≤ vols i * vols j) →
      pv = Real.sqrt (dotVec m w (matVec m cov w)) →
      0 ≤ calculate_diversification_benefit m vols w pv) := by
  refine ⟨fun h1 => ?_, fun h1 => ?_, fun hv hc hpv => ?_⟩
  · unfold calculate_diversification_benefit
    rw [if_pos h1]
  · unfold calculate_diversification_benefit
    rw [if_neg h1]
  · unfold calculate_diversification_benefit
    by_cases h1 : m = 1
    · rw [if_pos h1]
    · rw [if_neg h1]
      have hwn : ∀ i, 0 ≤ w i := hw.2
      have hnaive : 0 ≤ ∑ i, vols i * w i :=
        Finset.sum_nonneg (fun i _ => mul_nonneg (hv i) (hwn i))
      have hq : dotVec m w (matVec m cov w) ≤ (∑ i, vols i * w i) ^ 2 := by
        unfold dotVec matVec
        have step1 : (∑ i, w i * ∑ j, cov i j * w j) ≤
            ∑ i, w i * ∑ j, (vols i * vols j) * w j := by
          refine Finset.sum_le_sum (fun i _ => ?_)
          refine mul_le_mul_of_nonneg_left ?_ (hwn i)
          exact Finset.sum_le_sum (fun j _ =>
            mul_le_mul_of_nonneg_right (hc i j) (hwn j))
        have step2 : (∑ i, w i * ∑ j, (vols i * vols j) * w j) =
            (∑ i, vols i * w i) ^ 2 := by
          rw [sq, Finset.sum_mul_sum]
          refine Finset.sum_congr rfl (fun i _ => ?_)
          rw [Finset.mul_sum]
          exact Finset.sum_congr rfl (fun j _ => by ring)
        calc (∑ i, w i * ∑ j, cov i j * w j)
            ≤ ∑ i, w i * ∑ j, (vols i * vols j) * w j := step1
          _ = (∑ i, vols i * w i) ^ 2 := step2
      have hple : pv ≤ ∑ i, vols i * w i := by
        rw [hpv]
        calc Real.sqrt (dotVec m w (matVec m cov w))
            ≤ Real.sqrt ((∑ i, vols i * w i) ^ 2) := Real.sqrt_le_sqrt hq
          _ = ∑ i, vols i * w i := Real.sqrt_sq hnaive
      exact sub_nonneg.mpr hple

/-- Witness for C5 at a concrete two-asset portfolio with equal weights
and a covariance dominated by the volatility products. -/
theorem claim_C5_witness :
    0 ≤ calculate_diversification_benefit 2 ![(1:ℝ)/10, 1/5] ![(1:ℝ)/2, 1/2]
      (Real.sqrt (dotVec 2 ![(1:ℝ)/2, 1/2]
        (matVec 2 ![![(1:ℝ)/100, 1/100], ![(1:ℝ)/100, 1/25]] ![(1:ℝ)/2, 1/2]))) :=
  (claim_C5 2 ![(1:ℝ)/10, 1/5] ![(1:ℝ)/2, 1/2]
    ![![(1:ℝ)/100, 1/100], ![(1:ℝ)/100, 1/25]] _
    ⟨by norm_num [Fin.sum_univ_two], fun i => by fin_cases i <;> norm_num⟩).2.2
    (fun i => by fin_cases i <;> norm_num)
    (fun i j => by fin_cases i <;> fin_cases j <;> norm_num)
    rfl

/-- The length of a first-difference series is one less than the input's. -/
lemma diffWith_length (f : ℝ → ℝ → ℝ) (l : List ℝ) :
    (diffWith f l).length = l.length - 1 := by
  unfold diffWith
  rw [List.length_zipWith, List.length_tail]
  omega

/-- Entry `i` of a first-difference series combines entries `i` and
`i + 1` of the input. -/
lemma diffWith_getD (f : ℝ → ℝ → ℝ) (l : List ℝ) (i : ℕ)
    (h : i + 1 < l.length) :
    (diffWith f l).getD i 0 = f (l.getD i 0) (l.getD (i + 1) 0) := by
  have hd : i < (diffWith f l).length := by
    rw [diffWith_length]
    omega
  have ht : i < l.tail.length := by
    rw [List.length_tail]
    omega
  rw [List.getD_eq_getElem _ _ hd, List.getD_eq_getElem _ _ (by omega : i < l.length),
    List.getD_eq_getElem _ _ h]
  unfold diffWith
  rw [List.getElem_zipWith]
  congr 1
  exact List.getElem_tail l i ht

/-- C3: `daily_returns` raises `EmptyInputError` exactly on a zero-row
price table (otherwise returning the simple-return differences), while
`daily_log_returns` performs no emptiness check: it is total, yielding a
series of length `len - 1` whose entry `i` is
`ln(prices[i+1]) - ln(prices[i])`. -/
theorem claim_C3 (p : List ℝ) :
    (daily_returns p = .error .emptyInput ↔ p = []) ∧
    (p ≠ [] → daily_returns p = .ok (diffWith (fun a b => b / a - 1) p)) ∧
    (daily_log_returns p).length = p.length - 1 ∧
    (∀ i : ℕ, i + 1 < p.length →
      (daily_log_returns p).getD i 0 =
        Real.log (p.getD (i + 1) 0) - Real.log (p.getD i 0)) := by
  refine ⟨?_, fun h => ?_, ?_, fun i h => ?_⟩
  · cases p with
    | nil => simp [daily_returns]
    | cons x xs => simp [daily_returns]
  · unfold daily_returns
    rw [if_neg (by simp [h])]
  · unfold daily_log_returns
    rw [diffWith_length, List.length_map]
  · unfold daily_log_returns
    have hm : i + 1 < (p.map Real.log).length := by
      rw [List.length_map]
      exact h
    rw [diffWith_getD _ _ i hm,
      List.getD_eq_getElem _ _ (by rw [List.length_map]; omega : i < (p.map Real.log).length),
      List.getD_eq_getElem _ _ hm,
      List.getD_eq_getElem _ _ (by omega : i < p.length),
      List.getD_eq_getElem _ _ (by omega : i + 1 < p.length),
      List.getElem_map, List.getElem_map]

/-- Witness for C3: the empty price table yields `EmptyInputError` from
`daily_returns`. -/
theorem claim_C3_witness : daily_returns [] = .error .emptyInput :=
  (claim_C3 []).1.mpr rfl

/-! ### Drawdown helper lemmas -/

lemma cummaxFrom_length (c : ℚ) (l : List ℚ) :
    (cummaxFrom c l).length = l.length := by
  induction l generalizing c with
  | nil => rfl
  | cons x xs ih => simp [cummaxFrom, ih]

lemma cummax_length (l : List ℚ) : (cummax l).length = l.length := by
  cases l with
  | nil => rfl
  | cons x xs => simp [cummax, cummaxFrom_length]

/-- Each entry of the running maximum dominates the corresponding input
entry. -/
lemma le_cummaxFrom_getD (c : ℚ) (l : List ℚ) (i : ℕ) (h : i < l.length) :
    l.getD i 0 ≤ (cummaxFrom c l).getD i 0 := by
  induction l generalizing c i with
  | nil => simp at h
  | cons x xs ih =>
    cases i with
    | zero => exact le_max_right c x
    | succ i => exact ih (max c x) i (by simpa using h)

lemma le_cummax_getD (l : List ℚ) (i : ℕ) (h : i < l.length) :
    l.getD i 0 ≤ (cummax l).getD i 0 := by
  cases l with
  | nil => simp at h
  | cons x xs =>
    cases i with
    | zero => exact le_refl x
    | succ i => exact le_cummaxFrom_getD x xs i (by simpa using h)

/-- The running maximum of a positive series from a positive start stays
positive. -/
lemma cummaxFrom_getD_pos (c : ℚ) (l : List ℚ) (hc : 0 < c)
    (hl : ∀ x ∈ l, 0 < x) (i : ℕ) (h : i < l.length) :
    0 < (cummaxFrom c l).getD i 0 := by
  induction l generalizing c i with
  | nil => simp at h
  | cons x xs ih =>
    cases i with
    | zero => exact lt_max_of_lt_left hc
    | succ i =>
      exact ih (max c x) (lt_max_of_lt_left hc)
        (fun y hy => hl y (List.mem_cons_of_mem x hy)) i (by simpa using h)

lemma cummax_getD_pos (l : List ℚ) (hl : ∀ x ∈ l, 0 < x) (i : ℕ)
    (h : i < l.length) : 0 < (cummax l).getD i 0 := by
  cases l with
  | nil => simp at h
  | cons x xs =>
    cases i with
    | zero => exact hl x (List.mem_cons_self x xs)
    | succ i =>
      exact cummaxFrom_getD_pos x xs (hl x (List.mem_cons_self x xs))
        (fun y hy => hl y (List.mem_cons_of_mem x hy)) i (by simpa using h)

lemma drawdownSeries_length (p : List ℚ) :
    (drawdownSeries p).length = p.length := by
  unfold drawdownSeries
  rw [List.length_zipWith, cummax_length, min_self]

lemma drawdownSeries_getD (p : List ℚ) (i : ℕ) (h : i < p.length) :
    (drawdownSeries p).getD i 0 =
      (p.getD i 0 - (cummax p).getD i 0) / (cummax p).getD i 0 := by
  have hd : i < (drawdownSeries p).length := by rw [drawdownSeries_length]; exact h
  have hcx : i < (cummax p).length := by rw [cummax_length]; exact h
  rw [List.getD_eq_getElem _ _ hd, List.getD_eq_getElem _ _ h,
    List.getD_eq_getElem _ _ hcx]
  unfold drawdownSeries
  rw [List.getElem_zipWith]

/-- Source `Std.Antisymm` for `≤` on `ℚ`, needed by the core `List.min?`
characterization. -/
instance : Std.Antisymm (fun x1 x2 : ℚ => x1 ≤ x2) :=
  ⟨by intro a b h1 h2; exact le_antisymm h1 h2⟩

/-- C4: for strictly positive prices, each drawdown entry equals
`(value - running_max)/running_max`, is `≤ 0`, and vanishes exactly at
running peaks; the returned max drawdown is the minimum of the drawdown
series. -/
theorem claim_C4 (prices : List ℚ) (hpos : ∀ x ∈ prices, 0 < x) :
    (∀ i : ℕ, i < prices.length →
      (calculate_drawdown prices).1.getD i 0 =
        (prices.getD i 0 - (cummax prices).getD i 0) / (cummax prices).getD i 0 ∧
      (calculate_drawdown prices).1.getD i 0 ≤ 0 ∧
      ((calculate_drawdown prices).1.getD i 0 = 0 ↔
        prices.getD i 0 = (cummax prices).getD i 0)) ∧
    (prices ≠ [] → ∃ mdd, (calculate_drawdown prices).2 = some mdd ∧
      mdd ∈ (calculate_drawdown prices).1 ∧
      ∀ x ∈ (calculate_drawdown prices).1, mdd ≤ x) := by
  constructor
  · intro i h
    have hv : prices.getD i 0 ≤ (cummax prices).getD i 0 := le_cummax_getD prices i h
    have hm : 0 < (cummax prices).getD i 0 := cummax_getD_pos prices hpos i h
    have hdd : (calculate_drawdown prices).1.getD i 0 =
        (prices.getD i 0 - (cummax prices).getD i 0) / (cummax prices).getD i 0 :=
      drawdownSeries_getD prices i h
    refine ⟨hdd, ?_, ?_⟩
    · rw [hdd]
      exact div_nonpos_of_nonpos_of_nonneg (sub_nonpos.mpr hv) (le_of_lt hm)
    · rw [hdd, div_eq_zero_iff]
      constructor
      · rintro (h0 | h0)
        · exact sub_eq_zero.mp h0
        · exact absurd h0 (ne_of_gt hm)
      · intro h0
        exact Or.inl (sub_eq_zero.mpr h0)
  · intro hne
    have hlen : (drawdownSeries prices).length = prices.length := drawdownSeries_length prices
    obtain ⟨mdd, hmdd⟩ : ∃ a, (drawdownSeries prices).min? = some a := by
      cases hd : drawdownSeries prices with
      | nil =>
        have : prices.length = 0 := by rw [← hlen, hd]; rfl
        exact absurd (List.length_eq_zero.mp this) hne
      | cons y ys => exact ⟨_, List.min?_cons'⟩
    have hchar := (List.min?_eq_some_iff (fun x : ℚ => le_refl x)
      (fun x y => min_choice x y) (fun x y z => le_min_iff)).mp hmdd
    exact ⟨mdd, hmdd, hchar.1, hchar.2⟩

/-- Witness for C4 on the prices `[2, 1, 3]`: the drawdown at the dip is
nonpositive. -/
theorem claim_C4_witness :
    (calculate_drawdown [2, 1, 3]).1.getD 1 0 ≤ 0 :=
  ((claim_C4 [2, 1, 3] (by norm_num)).1 1 (by norm_num)).2.1

end FinRisk
